import Mathlib

/-!
Verification of the task-dispatch engine in `nornir/beta/core/runner.py` and of
the jinja-filter resolution in `nornir/plugins/tasks/text/template_file.py`.

The Python code is shallowly embedded: Python exceptions become an explicit
`Exc` value threaded through `Except`, a task is a function from the invocation
context to `Except Exc (PyVal α)` (where `PyVal` distinguishes a prebuilt
`Result` from any other return value, mirroring the dynamic `isinstance`
check), and the worker pool / event loop are modelled by a plain `List.map`
over the selected hosts, which is faithful because both blocking execution
modes gather a fully resolved, correctly attributed result per host before
`run` assembles the aggregate dictionary.
-/

/-- An arbitrary Python exception value: a `ValueError` with a message, or any
other exception identified by class name and message.  The dispatcher never
inspects the exception, so this concrete carrier is enough. -/
inductive Exc where
  | valueError : String → Exc
  | other : String → String → Exc
deriving DecidableEq, Repr

/-- A host from the inventory (external entity, `nornir.core.inventory.Host`):
a unique `name` plus an opaque attribute bag. -/
structure Host where
  name : String
  data : List (String × String)
deriving DecidableEq, Repr

/-- The run handle (`nornir.core.Nornir`), flattened to the three members the
runner reads: `nornir.inventory.hosts` (an insertion-ordered dict, modelled as
an association list), `nornir.data.failed_hosts` (a set of names, modelled as a
list queried by membership) and `nornir.config.core.num_workers`. -/
structure Nornir where
  hosts : List (String × Host)
  failed_hosts : List String
  num_workers : Nat
deriving DecidableEq, Repr

/-- `NornirTaskData` (runner.py lines 12-16): the immutable invocation context
for one task execution against one host. -/
structure NornirTaskData where
  host : Host
  nornir : Nornir
  name : String
deriving DecidableEq, Repr

/-- `logging.INFO`, the default `severity_level` of a `Result`. -/
def logging_INFO : Nat := 20

/-- `Result` (runner.py lines 19-27): the per-target outcome record.  A
recursive inductive because `sub_results` nests Results.  Field defaults from
the dataclass: `data=None`, `sub_results=[]`, `changed=False`, `diff=""`,
`exception=None`, `severity_level=logging.INFO`. -/
inductive Result (α : Type) where
  | mk
      (ntd : NornirTaskData)
      (data : Option α)
      (sub_results : List (Result α))
      (changed : Bool)
      (diff : String)
      (exception : Option Exc)
      (severity_level : Nat)

/-- Projection: the `ntd` field of a `Result`. -/
def Result.ntd : Result α → NornirTaskData
  | .mk n _ _ _ _ _ _ => n

/-- Projection: the `data` field of a `Result`. -/
def Result.data : Result α → Option α
  | .mk _ d _ _ _ _ _ => d

/-- Projection: the `sub_results` field of a `Result`. -/
def Result.sub_results : Result α → List (Result α)
  | .mk _ _ s _ _ _ _ => s

/-- Projection: the `changed` field of a `Result`. -/
def Result.changed : Result α → Bool
  | .mk _ _ _ c _ _ _ => c

/-- Projection: the `diff` field of a `Result`. -/
def Result.diff : Result α → String
  | .mk _ _ _ _ d _ _ => d

/-- Projection: the `exception` field of a `Result`. -/
def Result.exception : Result α → Option Exc
  | .mk _ _ _ _ _ e _ => e

/-- Projection: the `severity_level` field of a `Result`. -/
def Result.severity_level : Result α → Nat
  | .mk _ _ _ _ _ _ s => s

/-- A value returned by a task body: either a prebuilt `Result`, or any other
Python value (`raw none` standing for Python `None`).  This models the dynamic
`isinstance(result, Result)` test in `_result_wrapper`. -/
inductive PyVal (α : Type) where
  | raw : Option α → PyVal α
  | res : Result α → PyVal α

/-- A task callable.  `qualname` is the function's own `__qualname__`,
`cls_qualname` is `task.__class__.__qualname__` (for a plain Python function
this is the constant string `"function"`), `is_coroutine` is what
`asyncio.iscoroutinefunction` reports, and `call` is the body: given the
invocation context it either returns a value or raises.  Caller-supplied
keyword arguments are part of the closure. -/
structure TaskFn (α : Type) where
  qualname : String
  cls_qualname : String
  is_coroutine : Bool
  call : NornirTaskData → Except Exc (PyVal α)

/-- `_result_wrapper` (runner.py lines 48-53): if the task returned a `Result`
already, overwrite its `ntd` with the current one and return it; otherwise
wrap the returned value as the `data` of a fresh `Result`. -/
def result_wrapper (result : PyVal α) (ntd : NornirTaskData) : Result α :=
  match result with
  | .res (.mk _ d s c df e sl) => .mk ntd d s c df e sl
  | .raw v => .mk ntd v [] false "" none logging_INFO

/-- `_func_wrapper` (runner.py lines 56-62): invoke the task; on success apply
`_result_wrapper`; on any exception return a `Result` recording it (all other
fields keep their defaults, in particular `data=None`). -/
def func_wrapper (func : TaskFn α) (ntd : NornirTaskData) : Result α :=
  match func.call ntd with
  | .ok result => result_wrapper result ntd
  | .error e => .mk ntd none [] false "" (some e) logging_INFO

/-- `_async_func_wrapper` (runner.py lines 65-75): identical to `_func_wrapper`
except that the task is awaited; awaiting is transparent in this embedding. -/
def async_func_wrapper (func : TaskFn α) (ntd : NornirTaskData) : Result α :=
  match func.call ntd with
  | .ok result => result_wrapper result ntd
  | .error e => .mk ntd none [] false "" (some e) logging_INFO

/-- Python string truthiness applied by `name or task.__class__.__qualname__`
(runner.py line 89): `None` and the empty string are falsy. -/
def py_or_str (a : Option String) (b : String) : String :=
  match a with
  | none => b
  | some s => if s = "" then b else s

/-- The host-selection loops of `TaskRunner.__init__` (runner.py lines
94-102): first every inventory host whose dict key is not in `failed_hosts`
(when `on_good`), then every inventory host whose dict key is in
`failed_hosts` (when `on_failed`), appended in inventory order. -/
def select_hosts (nornir : Nornir) (on_good on_failed : Bool) : List Host :=
  (if on_good then
    (nornir.hosts.filter (fun p => !(nornir.failed_hosts.contains p.1))).map Prod.snd
   else [])
  ++
  (if on_failed then
    (nornir.hosts.filter (fun p => nornir.failed_hosts.contains p.1)).map Prod.snd
   else [])

/-- The dispatcher state after `TaskRunner.__init__` (runner.py lines 78-102). -/
structure TaskRunner (α : Type) where
  task : TaskFn α
  name : String
  nornir : Nornir
  num_workers : Nat
  severity_level : Nat
  hosts : List Host

/-- `TaskRunner.__init__` (runner.py lines 79-102), with the source's
positional parameter order. -/
def TaskRunner.init (task : TaskFn α) (nornir : Nornir) (name : Option String)
    (severity_level : Nat) (on_good on_failed : Bool) : TaskRunner α :=
  { task := task
    name := py_or_str name task.cls_qualname
    nornir := nornir
    num_workers := nornir.num_workers
    severity_level := severity_level
    hosts := select_hosts nornir on_good on_failed }

/-- The invocation context built for one host:
`NornirTaskData(host=h, nornir=self.nornir, name=self.name)`
(runner.py lines 119, 133, 149, 163). -/
def TaskRunner.ntd_for (tr : TaskRunner α) (h : Host) : NornirTaskData :=
  { host := h, nornir := tr.nornir, name := tr.name }

/-- `AggregatedResults` (runner.py lines 40-45): a dict from host name to
`Result` (modelled as an insertion-ordered association list) plus a `name`
label. -/
structure AggregatedResults (α : Type) where
  name : String
  entries : List (String × Result α)

/-- Python dict item assignment `agg_results[k] = v` on the association-list
model: update in place if the key is present, else append. -/
def dict_set (m : List (String × Result α)) (k : String) (v : Result α) :
    List (String × Result α) :=
  if m.any (fun p => p.1 == k) then
    m.map (fun p => if p.1 == k then (k, v) else p)
  else m ++ [(k, v)]

/-- `TaskRunner.run` (runner.py lines 104-112): pick the execution mode from
`asyncio.iscoroutinefunction(self.task)`, gather one fully resolved `Result`
per selected host (`_run_async` lines 114-124 / `_run_sync` lines 126-141 both
block until every per-host wrapper has completed, results in host order), then
key each result by `r.ntd.host.name` into a fresh `AggregatedResults`. -/
def TaskRunner.run (tr : TaskRunner α) : AggregatedResults α :=
  let result :=
    if tr.task.is_coroutine then
      tr.hosts.map (fun h => async_func_wrapper tr.task (tr.ntd_for h))
    else
      tr.hosts.map (fun h => func_wrapper tr.task (tr.ntd_for h))
  { name := tr.name
    entries := result.foldl (fun m r => dict_set m r.ntd.host.name r) [] }

/-- `FutureException` (runner.py lines 172-178): the distinguished error of the
deferred async path, carrying the original exception and the invocation
context. -/
structure FutureException where
  exc : Exc
  ntd : NornirTaskData

/-- `_futures_wrapper` (runner.py lines 181-187): await the task and return its
value unwrapped (no `_result_wrapper` here); on any exception raise a
`FutureException` carrying it together with the context. -/
def futures_wrapper (task : TaskFn α) (ntd : NornirTaskData) :
    Except FutureException (PyVal α) :=
  match task.call ntd with
  | .ok v => .ok v
  | .error e => .error { exc := e, ntd := ntd }

/-- `TaskRunner.async_with_futures` (runner.py lines 143-154): one future per
selected host, each resolving to what `_futures_wrapper` produces for that
host.  The set of futures is modelled by the list of their resolved outcomes
in host order. -/
def TaskRunner.async_with_futures (tr : TaskRunner α) :
    List (Except FutureException (PyVal α)) :=
  tr.hosts.map (fun h => futures_wrapper tr.task (tr.ntd_for h))

/-- `TaskRunner.sync_with_futures` (runner.py lines 156-169): one future per
selected host, each resolving to what `_func_wrapper` produces for that host
(note: this entry point submits `_func_wrapper`, not `_futures_wrapper`).
The set of futures is modelled by the list of their resolved values in host
order. -/
def TaskRunner.sync_with_futures (tr : TaskRunner α) : List (Result α) :=
  tr.hosts.map (fun h => func_wrapper tr.task (tr.ntd_for h))

/-- What a call to the callable built by `with_retries.sync_wrapper` or
`with_retries.async_wrapper` does: return a value, re-raise an exception, or
fall through the `for` loop and return Python `None` (`fellThrough`). -/
inductive RetryOutcome (α : Type) where
  | value : α → RetryOutcome α
  | raised : Exc → RetryOutcome α
  | fellThrough : RetryOutcome α
deriving DecidableEq, Repr

/-- The retry loop body shared by both wrappers (runner.py lines 200-220):
`for i in range(1, attempts + 1): try: return func(..., attempt=i)
except Exception: if i + 1 == self.attempts: raise`.  `i` is the current
attempt number, `rem` the number of loop iterations left; the second component
of the output records every attempt number at which `func` was invoked. -/
def retry_loop (attempts : Nat) (func : Nat → Except Exc α) :
    Nat → Nat → RetryOutcome α × List Nat
  | _, 0 => (.fellThrough, [])
  | i, rem + 1 =>
    match func i with
    | .ok v => (.value v, [i])
    | .error e =>
      if i + 1 = attempts then (.raised e, [i])
      else
        let r := retry_loop attempts func (i + 1) rem
        (r.1, i :: r.2)

/-- `with_retries(attempts).sync_wrapper(func)` applied to fixed call
arguments (runner.py lines 211-220): the underlying task is abstracted to its
outcome as a function of the injected `attempt` parameter. -/
def sync_wrapper (attempts : Nat) (func : Nat → Except Exc α) :
    RetryOutcome α × List Nat :=
  retry_loop attempts func 1 attempts

/-- `with_retries(attempts).async_wrapper(func)` (runner.py lines 200-209):
identical to the sync wrapper up to awaiting, which is transparent here. -/
def async_wrapper (attempts : Nat) (func : Nat → Except Exc α) :
    RetryOutcome α × List Nat :=
  retry_loop attempts func 1 attempts

/-- The `jinja_filters` resolution performed by `template_file`
(template_file.py line 29):
`jinja_filters = jinja_filters or {} or task.nornir.config.jinja_filters`.
Python `or` returns its left operand when truthy; `None` is falsy and a dict
is truthy iff nonempty.  Filter dicts are association lists over an abstract
filter type `φ`. -/
def template_file_jinja_filters {φ : Type} (jinja_filters : Option (List (String × φ)))
    (config_filters : List (String × φ)) : List (String × φ) :=
  let lhs : List (String × φ) :=
    match jinja_filters with
    | none => []
    | some d => if d.isEmpty then [] else d
  if lhs.isEmpty then config_filters else lhs

/-! Concrete fixtures used by witnesses and counterexamples. -/

/-- A concrete inventory host. -/
def hostA : Host := { name := "web1", data := [("site", "nyc")] }

/-- A concrete inventory host. -/
def hostB : Host := { name := "web2", data := [("site", "sfo")] }

/-- A concrete inventory host, marked as previously failed. -/
def hostC : Host := { name := "db1", data := [] }

/-- A concrete run handle: three hosts, one of them in the failed set. -/
def nornirABC : Nornir :=
  { hosts := [("web1", hostA), ("web2", hostB), ("db1", hostC)]
    failed_hosts := ["db1"]
    num_workers := 20 }

/-- A concrete blocking task over `Nat` data that raises a ValueError for host
`web2` and returns the plain value `7` for every other host. -/
def taskBoom : TaskFn Nat :=
  { qualname := "tasks.task_boom"
    cls_qualname := "function"
    is_coroutine := false
    call := fun ntd =>
      if ntd.host.name = "web2" then Except.error (Exc.valueError "boom")
      else Except.ok (.raw (some 7)) }

/-- The dispatcher built over `taskBoom` and `nornirABC` with default flags. -/
def trBoom : TaskRunner Nat :=
  TaskRunner.init taskBoom nornirABC none logging_INFO true false

/-- A concrete task that raises on every invocation. -/
def taskFail : TaskFn Nat :=
  { qualname := "tasks.task_fail"
    cls_qualname := "function"
    is_coroutine := false
    call := fun _ => Except.error (Exc.valueError "down") }

/-- A single-host run handle for the deferred-mode counterexample. -/
def nornirOne : Nornir :=
  { hosts := [("web1", hostA)], failed_hosts := [], num_workers := 20 }

/-- The dispatcher built over `taskFail` and `nornirOne`. -/
def trFail : TaskRunner Nat :=
  TaskRunner.init taskFail nornirOne none logging_INFO true false

/-- Two distinct plain-function tasks: their `__qualname__`s differ, but both
have `__class__.__qualname__ == "function"` as every plain Python function
does. -/
def taskIdA : TaskFn Nat :=
  { qualname := "tasks.render_config"
    cls_qualname := "function"
    is_coroutine := false
    call := fun _ => Except.ok (.raw none) }

/-- Second distinct plain-function task, same class qualname. -/
def taskIdB : TaskFn Nat :=
  { qualname := "tasks.push_config"
    cls_qualname := "function"
    is_coroutine := false
    call := fun _ => Except.ok (.raw none) }

/-- The exception an always-failing retried task raises at attempt `i`. -/
def c2err : Nat → Exc := fun _ => Exc.valueError "always boom"

/-- An always-failing retried task body, as outcome per attempt number. -/
def c2func : Nat → Except Exc Nat := fun i => Except.error (c2err i)

/-! Helper lemmas. -/

/-- When the task raises at every attempt, the retry loop started at attempt
`i` with `rem` iterations left (and at least two of them) invokes attempts
`i, i+1, ...` and re-raises at attempt `attempts - 1`, one short of the last
loop iteration. -/
theorem retry_loop_always_raises (attempts : Nat) (func : Nat → Except Exc α)
    (err : Nat → Exc) (hfail : ∀ i, func i = Except.error (err i)) :
    ∀ rem i, i + rem = attempts + 1 → 2 ≤ rem →
      retry_loop attempts func i rem
        = (.raised (err (attempts - 1)), List.range' i (rem - 1)) := by
  intro rem
  induction rem with
  | zero => intro i _ h2; omega
  | succ r ih =>
    intro i hsum h2
    simp only [retry_loop, hfail i]
    by_cases hlast : i + 1 = attempts
    · have hr : r = 1 := by omega
      subst hr
      have hi : i = attempts - 1 := by omega
      rw [if_pos hlast, hi]
      rfl
    · have hr2 : 2 ≤ r := by omega
      have ihr := ih (i + 1) (by omega) hr2
      rw [if_neg hlast, ihr]
      have hr1 : r - 1 + 1 = r := by omega
      simp only [Nat.succ_sub_one]
      rw [← hr1, List.range'_succ]
      simp

/-! Claim theorems. -/

/-- C2: a task that raises on every invocation is invoked by the wrapper that
`with_retries(attempts)` produces exactly at attempts `1, ..., attempts - 1`,
and the exception of attempt `attempts - 1` (the one where `i + 1 == attempts`)
is re-raised without performing the final attempt; at `attempts = 3` the task
is invoked exactly twice, at attempts 1 and 2.  Both the sync and the async
wrapper behave this way. -/
theorem with_retries_reraises_one_attempt_early (attempts : Nat)
    (func : Nat → Except Exc α) (err : Nat → Exc)
    (hfail : ∀ i, func i = Except.error (err i)) (h2 : 2 ≤ attempts) :
    sync_wrapper attempts func
      = (.raised (err (attempts - 1)), List.range' 1 (attempts - 1))
    ∧ async_wrapper attempts func = sync_wrapper attempts func := by
  refine ⟨?_, rfl⟩
  exact retry_loop_always_raises attempts func err hfail attempts 1 (by omega) h2

/-- Witness for C2 at `attempts = 3`: the always-raising task is invoked
exactly twice, at attempts 1 and 2, and the wrapper re-raises. -/
theorem with_retries_reraises_witness :
    ((∀ i, c2func i = Except.error (c2err i)) ∧ 2 ≤ 3)
    ∧ (sync_wrapper 3 c2func = (.raised (c2err 2), [1, 2])
       ∧ async_wrapper 3 c2func = sync_wrapper 3 c2func) :=
  ⟨⟨fun _ => rfl, by decide⟩,
   with_retries_reraises_one_attempt_early 3 c2func c2err (fun _ => rfl) (by decide)⟩

/-- C9: with `attempts = 1` the wrapper invokes the task exactly once (at
attempt 1) and, when that invocation raises, neither re-raises nor retries:
the loop falls through and the wrapper returns Python `None`, silently
swallowing the failure.  Both wrappers agree. -/
theorem with_retries_one_attempt_swallows (func : Nat → Except Exc α) (e : Exc)
    (h : func 1 = Except.error e) :
    sync_wrapper 1 func = (.fellThrough, [1])
    ∧ async_wrapper 1 func = sync_wrapper 1 func := by
  refine ⟨?_, rfl⟩
  simp [sync_wrapper, retry_loop, h]

/-- Witness for C9: a concrete always-raising task under `with_retries(1)`. -/
theorem with_retries_one_attempt_witness :
    c2func 1 = Except.error (c2err 1)
    ∧ (sync_wrapper 1 c2func = (.fellThrough, [1])
       ∧ async_wrapper 1 c2func = sync_wrapper 1 c2func) :=
  ⟨rfl, with_retries_one_attempt_swallows c2func (c2err 1) rfl⟩

/-- C7: when a task returns a prebuilt `Result`, `_result_wrapper` overwrites
only its invocation context with the current one — every other field is left
unchanged — and re-attributing again with the same context changes nothing
(idempotence). -/
theorem result_reattribution (r : Result α) (ntd : NornirTaskData) :
    (result_wrapper (.res r) ntd).ntd = ntd
    ∧ (result_wrapper (.res r) ntd).data = r.data
    ∧ (result_wrapper (.res r) ntd).sub_results = r.sub_results
    ∧ (result_wrapper (.res r) ntd).changed = r.changed
    ∧ (result_wrapper (.res r) ntd).diff = r.diff
    ∧ (result_wrapper (.res r) ntd).exception = r.exception
    ∧ (result_wrapper (.res r) ntd).severity_level = r.severity_level
    ∧ result_wrapper (.res (result_wrapper (.res r) ntd)) ntd
        = result_wrapper (.res r) ntd := by
  cases r
  exact ⟨rfl, rfl, rfl, rfl, rfl, rfl, rfl, rfl⟩

/-- C10: in `template_file`, an explicit empty filters dict is
indistinguishable from passing `None`: both resolve to the configuration's
jinja filters, so an empty dict cannot disable the configured filters. -/
theorem template_file_empty_filters_fallback {φ : Type}
    (cfg : List (String × φ)) :
    template_file_jinja_filters (some []) cfg = cfg
    ∧ template_file_jinja_filters none cfg = cfg
    ∧ template_file_jinja_filters (some ([] : List (String × φ))) cfg
        = template_file_jinja_filters none cfg :=
  ⟨rfl, rfl, rfl⟩

/-- The blocking failure-wrapping adapter always attaches the current
invocation context to the `Result` it produces, whatever the task did. -/
theorem ntd_func_wrapper (f : TaskFn α) (ntd : NornirTaskData) :
    (func_wrapper f ntd).ntd = ntd := by
  unfold func_wrapper
  cases f.call ntd with
  | error e => rfl
  | ok v =>
    cases v with
    | raw x => rfl
    | res r => cases r; rfl

/-- The two blocking adapters are functionally identical (awaiting is
transparent in the embedding). -/
theorem async_func_wrapper_eq (f : TaskFn α) (ntd : NornirTaskData) :
    async_func_wrapper f ntd = func_wrapper f ntd := rfl

/-- Assigning a fresh key into the dict model appends the pair. -/
theorem dict_set_of_fresh (m : List (String × Result α)) (k : String)
    (v : Result α) (h : k ∉ m.map Prod.fst) : dict_set m k v = m ++ [(k, v)] := by
  unfold dict_set
  rw [if_neg]
  intro hany
  rw [List.any_eq_true] at hany
  obtain ⟨p, hp, hbeq⟩ := hany
  exact h (List.mem_map.mpr ⟨p, hp, beq_iff_eq.mp hbeq⟩)

/-- Folding dict assignment over results with pairwise-fresh keys appends one
pair per result, in order. -/
theorem foldl_dict_set_of_nodup (rs : List (Result α)) :
    ∀ m : List (String × Result α),
      (m.map Prod.fst ++ rs.map (fun r => r.ntd.host.name)).Nodup →
      rs.foldl (fun m r => dict_set m r.ntd.host.name r) m
        = m ++ rs.map (fun r => (r.ntd.host.name, r)) := by
  induction rs with
  | nil => intro m _; simp
  | cons r rs ih =>
    intro m hnd
    have hk : r.ntd.host.name ∉ m.map Prod.fst := by
      intro hkA
      exact (List.nodup_append.mp hnd).2.2 hkA (List.mem_cons_self _ _)
    have hnd2 : ((m ++ [(r.ntd.host.name, r)]).map Prod.fst
        ++ rs.map (fun r => r.ntd.host.name)).Nodup := by
      simpa [List.append_assoc] using hnd
    rw [List.foldl_cons, dict_set_of_fresh m _ r hk, ih _ hnd2]
    simp

/-- Characterization of the aggregate dictionary built by `run`: when selected
host names are pairwise distinct, it holds exactly one pair per selected host,
in host order, each mapping the host's name to its adapter output. -/
theorem run_entries_eq (tr : TaskRunner α)
    (hnd : (tr.hosts.map Host.name).Nodup) :
    tr.run.entries
      = tr.hosts.map (fun h => (h.name, func_wrapper tr.task (tr.ntd_for h))) := by
  have hkey : ∀ rs : List Host,
      (rs.map (fun h => func_wrapper tr.task (tr.ntd_for h))).map
        (fun r => r.ntd.host.name) = rs.map Host.name := by
    intro rs
    rw [List.map_map]
    apply List.map_congr_left
    intro a _
    simp [Function.comp, ntd_func_wrapper, TaskRunner.ntd_for]
  have hbody : (tr.hosts.map (fun h => func_wrapper tr.task (tr.ntd_for h))).foldl
        (fun m r => dict_set m r.ntd.host.name r) []
      = tr.hosts.map (fun h => (h.name, func_wrapper tr.task (tr.ntd_for h))) := by
    rw [foldl_dict_set_of_nodup _ [] (by simpa [hkey] using hnd)]
    rw [List.nil_append, List.map_map]
    apply List.map_congr_left
    intro a _
    simp [Function.comp, ntd_func_wrapper, TaskRunner.ntd_for]
  show (if tr.task.is_coroutine then
          tr.hosts.map (fun h => async_func_wrapper tr.task (tr.ntd_for h))
        else
          tr.hosts.map (fun h => func_wrapper tr.task (tr.ntd_for h))).foldl
        (fun m r => dict_set m r.ntd.host.name r) []
      = tr.hosts.map (fun h => (h.name, func_wrapper tr.task (tr.ntd_for h)))
  simp only [async_func_wrapper_eq, ite_self]
  exact hbody

/-- Looking up a host's name in the per-host pair list returns that host's
value when host names are pairwise distinct. -/
theorem lookup_map_of_nodup {β : Type} (l : List Host) (g : Host → β) (h : Host)
    (hnd : (l.map Host.name).Nodup) (hmem : h ∈ l) :
    (l.map (fun x => (x.name, g x))).lookup h.name = some (g h) := by
  induction l with
  | nil => cases hmem
  | cons x l ih =>
    rcases List.mem_cons.mp hmem with rfl | hmem'
    · simp [List.lookup]
    · have hx : (h.name == x.name) = false := by
        rw [beq_eq_false_iff_ne]
        intro he
        have hin : h.name ∈ l.map Host.name := List.mem_map.mpr ⟨h, hmem', rfl⟩
        rw [he] at hin
        exact (List.nodup_cons.mp (by simpa using hnd)).1 hin
      simp only [List.map_cons, List.lookup, hx]
      exact ih (List.nodup_cons.mp (by simpa using hnd)).2 hmem'

/-- With pairwise-distinct inventory keys, each keyed to a host of that name,
the selected hosts have pairwise-distinct names: the two selection loops pick
disjoint (failed vs not-failed) sublists of the inventory. -/
theorem select_hosts_names_nodup (nr : Nornir) (g f : Bool)
    (hkeys : (nr.hosts.map Prod.fst).Nodup)
    (hcons : ∀ p ∈ nr.hosts, p.1 = p.2.name) :
    ((select_hosts nr g f).map Host.name).Nodup := by
  have hpart : ∀ P : String × Host → Bool,
      ((nr.hosts.filter P).map Prod.snd).map Host.name
        = (nr.hosts.filter P).map Prod.fst := by
    intro P
    rw [List.map_map]
    apply List.map_congr_left
    intro p hp
    exact (hcons p (List.mem_filter.mp hp).1).symm
  have hnodup : ∀ P : String × Host → Bool,
      (((nr.hosts.filter P).map Prod.snd).map Host.name).Nodup := by
    intro P
    rw [hpart]
    exact hkeys.sublist ((List.filter_sublist nr.hosts).map Prod.fst)
  have hgoodmem : ∀ a, a ∈ ((nr.hosts.filter
        (fun p => !(nr.failed_hosts.contains p.1))).map Prod.snd).map Host.name →
      nr.failed_hosts.contains a = false := by
    intro a ha
    rw [hpart] at ha
    obtain ⟨p, hp, rfl⟩ := List.mem_map.mp ha
    have := (List.mem_filter.mp hp).2
    simpa using this
  have hfailmem : ∀ a, a ∈ ((nr.hosts.filter
        (fun p => nr.failed_hosts.contains p.1)).map Prod.snd).map Host.name →
      nr.failed_hosts.contains a = true := by
    intro a ha
    rw [hpart] at ha
    obtain ⟨p, hp, rfl⟩ := List.mem_map.mp ha
    exact (List.mem_filter.mp hp).2
  unfold select_hosts
  cases g <;> cases f
  · show (([] ++ ([] : List Host)).map Host.name).Nodup
    simp
  · show (([] ++ (nr.hosts.filter
        (fun p : String × Host => nr.failed_hosts.contains p.1)).map Prod.snd).map Host.name).Nodup
    rw [List.nil_append]
    exact hnodup _
  · show ((((nr.hosts.filter
        (fun p : String × Host => !(nr.failed_hosts.contains p.1))).map Prod.snd)
        ++ []).map Host.name).Nodup
    rw [List.append_nil]
    exact hnodup _
  · show ((((nr.hosts.filter
        (fun p : String × Host => !(nr.failed_hosts.contains p.1))).map Prod.snd)
        ++ (nr.hosts.filter
        (fun p : String × Host => nr.failed_hosts.contains p.1)).map Prod.snd).map Host.name).Nodup
    rw [List.map_append]
    exact List.Nodup.append (hnodup _) (hnodup _) (by
      intro a hga hfa
      have h1 := hgoodmem a hga
      have h2 := hfailmem a hfa
      rw [h1] at h2
      cases h2)

/-- C1: during blocking dispatch, a task exception for one target is caught by
the per-target adapter and becomes that target's `Result`, with `exception`
set to the raised exception and `data` empty (`none`); it never propagates
(`run` is total and returns the aggregate), and every other selected target
still completes and appears in the aggregate under its own name with its own
adapter output. -/
theorem task_exception_contained (tr : TaskRunner α) (a : Host) (e : Exc)
    (hnd : (tr.hosts.map Host.name).Nodup) (hmem : a ∈ tr.hosts)
    (hraise : tr.task.call (tr.ntd_for a) = Except.error e) :
    List.lookup a.name tr.run.entries
      = some (Result.mk (tr.ntd_for a) none [] false "" (some e) logging_INFO)
    ∧ ∀ b ∈ tr.hosts,
        List.lookup b.name tr.run.entries
          = some (func_wrapper tr.task (tr.ntd_for b)) := by
  have hall : ∀ b ∈ tr.hosts, List.lookup b.name tr.run.entries
      = some (func_wrapper tr.task (tr.ntd_for b)) := by
    intro b hb
    rw [run_entries_eq tr hnd]
    exact lookup_map_of_nodup tr.hosts _ b hnd hb
  refine ⟨?_, hall⟩
  rw [hall a hmem]
  unfold func_wrapper
  rw [hraise]

/-- C4: with pairwise-distinct host names in the inventory, the aggregate
returned by `run` has exactly one entry per selected target, keyed by target
name, in selection order — no fewer, no more, and none for excluded targets. -/
theorem run_one_entry_per_target (t : TaskFn α) (nr : Nornir)
    (nm : Option String) (sl : Nat) (g f : Bool)
    (hkeys : (nr.hosts.map Prod.fst).Nodup)
    (hcons : ∀ p ∈ nr.hosts, p.1 = p.2.name) :
    (TaskRunner.init t nr nm sl g f).run.entries.map Prod.fst
      = (TaskRunner.init t nr nm sl g f).hosts.map Host.name
    ∧ ((TaskRunner.init t nr nm sl g f).run.entries.map Prod.fst).Nodup := by
  have hnd : ((TaskRunner.init t nr nm sl g f).hosts.map Host.name).Nodup :=
    select_hosts_names_nodup nr g f hkeys hcons
  have hfst : (TaskRunner.init t nr nm sl g f).run.entries.map Prod.fst
      = (TaskRunner.init t nr nm sl g f).hosts.map Host.name := by
    rw [run_entries_eq _ hnd, List.map_map]
    apply List.map_congr_left
    intro a _
    rfl
  exact ⟨hfst, hfst ▸ hnd⟩

/-- C5: the dispatched subset is exactly the union selected by the two flags —
a host is selected iff (`on_good` and its inventory key is not a failed name)
or (`on_failed` and its inventory key is a failed name) — and with both flags
false the subset is empty, so `run` returns an aggregate with zero entries. -/
theorem target_subset_by_flags (t : TaskFn α) (nr : Nornir) (nm : Option String)
    (sl : Nat) (g f : Bool) (h : Host) :
    (h ∈ (TaskRunner.init t nr nm sl g f).hosts
       ↔ (g = true ∧ ∃ n, (n, h) ∈ nr.hosts ∧ nr.failed_hosts.contains n = false)
         ∨ (f = true ∧ ∃ n, (n, h) ∈ nr.hosts ∧ nr.failed_hosts.contains n = true))
    ∧ (TaskRunner.init t nr nm sl false false).run.entries = [] := by
  constructor
  · show h ∈ select_hosts nr g f ↔ _
    unfold select_hosts
    cases g <;> cases f <;>
      simp [List.mem_filter, List.mem_map, Prod.exists, and_comm, and_left_comm]
  · show (TaskRunner.run _).entries = []
    simp [TaskRunner.run, TaskRunner.init, select_hosts]

/-- C6: a target whose task returns a plain (non-`Result`) value `v` gets an
aggregate entry under its name whose `Result` has `data = v`, `exception`
unset, and the invocation context of that very host attached. -/
theorem plain_value_result (tr : TaskRunner α) (hh : Host) (v : Option α)
    (hnd : (tr.hosts.map Host.name).Nodup) (hmem : hh ∈ tr.hosts)
    (hret : tr.task.call (tr.ntd_for hh) = Except.ok (.raw v)) :
    List.lookup hh.name tr.run.entries
      = some (Result.mk (tr.ntd_for hh) v [] false "" none logging_INFO)
    ∧ (tr.ntd_for hh).host = hh := by
  refine ⟨?_, rfl⟩
  rw [run_entries_eq tr hnd, lookup_map_of_nodup tr.hosts _ hh hnd hmem]
  unfold func_wrapper
  rw [hret]
  rfl

/-- Witness for C1: over a three-host inventory (one host previously failed,
hence excluded), the task raises only for host `web2`; its aggregate entry
records the exception with empty data while every dispatched host keeps its
own entry. -/
theorem task_exception_contained_witness :
    ((trBoom.hosts.map Host.name).Nodup
      ∧ hostB ∈ trBoom.hosts
      ∧ trBoom.task.call (trBoom.ntd_for hostB)
          = Except.error (Exc.valueError "boom"))
    ∧ (List.lookup hostB.name trBoom.run.entries
        = some (Result.mk (trBoom.ntd_for hostB) none [] false ""
            (some (Exc.valueError "boom")) logging_INFO)
      ∧ ∀ b ∈ trBoom.hosts,
          List.lookup b.name trBoom.run.entries
            = some (func_wrapper trBoom.task (trBoom.ntd_for b))) :=
  ⟨⟨by decide, by decide, rfl⟩,
   task_exception_contained trBoom hostB (Exc.valueError "boom")
     (by decide) (by decide) rfl⟩

/-- Witness for C4: the three-host inventory with one failed host yields an
aggregate whose keys are exactly the two selected host names. -/
theorem run_one_entry_per_target_witness :
    ((nornirABC.hosts.map Prod.fst).Nodup
      ∧ ∀ p ∈ nornirABC.hosts, p.1 = p.2.name)
    ∧ ((TaskRunner.init taskBoom nornirABC none logging_INFO true false).run.entries.map
          Prod.fst
        = (TaskRunner.init taskBoom nornirABC none logging_INFO true false).hosts.map
          Host.name
      ∧ ((TaskRunner.init taskBoom nornirABC none logging_INFO
          true false).run.entries.map Prod.fst).Nodup) :=
  ⟨⟨by decide, by decide⟩,
   run_one_entry_per_target taskBoom nornirABC none logging_INFO true false
     (by decide) (by decide)⟩

/-- Witness for C6: host `web1`, whose task returns the plain value `7`, gets
an aggregate entry with `data = 7`, no exception, and its own context. -/
theorem plain_value_result_witness :
    ((trBoom.hosts.map Host.name).Nodup
      ∧ hostA ∈ trBoom.hosts
      ∧ trBoom.task.call (trBoom.ntd_for hostA) = Except.ok (.raw (some 7)))
    ∧ (List.lookup hostA.name trBoom.run.entries
        = some (Result.mk (trBoom.ntd_for hostA) (some 7) [] false "" none
            logging_INFO)
      ∧ (trBoom.ntd_for hostA).host = hostA) :=
  ⟨⟨by decide, by decide, rfl⟩,
   plain_value_result trBoom hostA (some 7) (by decide) (by decide) rfl⟩

/-- C3 (amended, async path): an exception raised by the task under the
deferred cooperative entry point is not converted into a `Result`; the
resolved handle raises a `FutureException` carrying the original exception and
the invocation context of the failing target. -/
theorem deferred_async_raises_distinguished (tr : TaskRunner α) (h : Host)
    (e : Exc) (hmem : h ∈ tr.hosts)
    (hraise : tr.task.call (tr.ntd_for h) = Except.error e) :
    futures_wrapper tr.task (tr.ntd_for h)
      = Except.error { exc := e, ntd := tr.ntd_for h }
    ∧ Except.error (α := PyVal α) { exc := e, ntd := tr.ntd_for h }
        ∈ tr.async_with_futures := by
  have hw : futures_wrapper tr.task (tr.ntd_for h)
      = Except.error { exc := e, ntd := tr.ntd_for h } := by
    unfold futures_wrapper
    rw [hraise]
  refine ⟨hw, ?_⟩
  unfold TaskRunner.async_with_futures
  exact List.mem_map.mpr ⟨h, hmem, hw⟩

/-- Counterexample to C3 as stated for every deferred entry point: the sync
deferred entry point submits the blocking adapter `_func_wrapper`, so for a
raising task the pending handle resolves to an ordinary `Result` carrying the
exception in its `exception` field — the exception IS converted into a
`Result` there, and no `FutureException` is raised. -/
theorem deferred_sync_converts_to_result :
    trFail.sync_with_futures
      = [Result.mk (trFail.ntd_for hostA) none [] false ""
          (some (Exc.valueError "down")) logging_INFO]
    ∧ (Result.mk (trFail.ntd_for hostA) (none : Option Nat) [] false ""
        (some (Exc.valueError "down")) logging_INFO).exception
      = some (Exc.valueError "down") :=
  ⟨rfl, rfl⟩

/-- Witness for the amended C3: the always-raising task dispatched deferred
over a one-host inventory resolves to a `FutureException` on the async path. -/
theorem deferred_async_raises_witness :
    (hostA ∈ trFail.hosts
      ∧ trFail.task.call (trFail.ntd_for hostA)
          = Except.error (Exc.valueError "down"))
    ∧ (futures_wrapper trFail.task (trFail.ntd_for hostA)
        = Except.error { exc := Exc.valueError "down", ntd := trFail.ntd_for hostA }
      ∧ Except.error (α := PyVal Nat)
          { exc := Exc.valueError "down", ntd := trFail.ntd_for hostA }
          ∈ trFail.async_with_futures) :=
  ⟨⟨by decide, rfl⟩,
   deferred_async_raises_distinguished trFail hostA (Exc.valueError "down")
     (by decide) rfl⟩

/-- Counterexample to C8 as stated: two distinct plain-function tasks (their
own qualified names differ) both get the derived aggregate name "function" —
the name comes from the task's class, not from the task's own identity, so it
does not identify the particular task function. -/
theorem derived_name_not_task_identity :
    taskIdA.qualname ≠ taskIdB.qualname
    ∧ (TaskRunner.init taskIdA nornirABC none logging_INFO true false).run.name
        = "function"
    ∧ (TaskRunner.init taskIdB nornirABC none logging_INFO true false).run.name
        = "function" :=
  ⟨by decide, rfl, rfl⟩

/-- C8 (amended): the aggregate's name label is the explicitly supplied task
name when a nonempty one is given; otherwise it is the qualified name of the
task callable's CLASS (`task.__class__.__qualname__`) — for plain Python
function tasks the constant "function", the same for every task rather than an
identification of the particular function. -/
theorem aggregate_name_label (t : TaskFn α) (nr : Nornir) (sl : Nat)
    (g f : Bool) (s : String) (hs : s ≠ "") :
    (TaskRunner.init t nr (some s) sl g f).run.name = s
    ∧ (TaskRunner.init t nr none sl g f).run.name = t.cls_qualname := by
  constructor
  · show (if s = "" then t.cls_qualname else s) = s
    rw [if_neg hs]
  · rfl

/-- Witness for the amended C8: an explicit name wins; with no explicit name
the label is the task's class qualname. -/
theorem aggregate_name_label_witness :
    ("backup" ≠ "")
    ∧ ((TaskRunner.init taskIdA nornirABC (some "backup") logging_INFO
          true false).run.name = "backup"
      ∧ (TaskRunner.init taskIdA nornirABC none logging_INFO
          true false).run.name = taskIdA.cls_qualname) :=
  ⟨by decide,
   aggregate_name_label taskIdA nornirABC logging_INFO true false "backup"
     (by decide)⟩
